import Mathlib

/-!
Shallow embedding of `src/server/slimcache/main.c` (the pelikan slimcache
entry point) and, for the store claim, a model of the CuckooStore operations
described by the specification (the store implementation itself is not part
of the provided sources).

The entry point is embedded as a trace semantics: every externally visible
action of `main`, `setup`, `teardown` and the `_shutdown` signal handler
becomes an event, and the program is a function from an environment (the
outcomes of the fallible external calls) to the list of events it performs,
ending in the `exited` event produced by `exit()`.
-/

namespace Slimcache

/-- Constant `EX_OK` from sysexits.h. -/
def EX_OK : Nat := 0

/-- Constant `EX_USAGE` from sysexits.h. -/
def EX_USAGE : Nat := 64

/-- Constant `EX_DATAERR` from sysexits.h. -/
def EX_DATAERR : Nat := 65

/-- Constant `EX_OSERR` from sysexits.h. -/
def EX_OSERR : Nat := 71

/-- Constant `EX_CONFIG` from sysexits.h. -/
def EX_CONFIG : Nat := 78

/-- The modules set up by `setup()` and torn down by `teardown()`,
one constructor per `*_setup`/`*_teardown` pair in main.c. -/
inductive Mod
| log
| debug
| buf
| dbuf
| event
| sockio
| tcp
| timing_wheel
| time
| procinfo
| request
| response
| parse
| compose
| klog
| cuckoo
| process
| admin_process
| core_admin
| core_server
| core_worker
deriving DecidableEq, Repr

/-- The enum slimcache_timeout_event_type (without the MAX sentinel):
the two timed events stored in `slimcache_tev`. -/
inductive Tev
| dlog
| klog
deriving DecidableEq, Repr

/-- Observable events of the embedded program. -/
inductive Ev
| showUsage
| showVersion
| describeOptions
| describeMetrics
| loadDefault
| loadFile
| modSetup (m : Mod)
| daemonizeCall
| createPidfile (f : String)
| removePidfile (f : String)
| adminRegister (t : Tev) (intvl : Nat)
| adminUnregister (t : Tev)
| optionPrintAll
| coreRunEv (flag : String)
| atomicStore (flag : String) (value : Bool) (release : Bool)
| coreDestroy
| modTeardown (m : Mod)
| exited (code : Nat)
deriving DecidableEq, Repr

/-- Struct data_processor from main.c (handlers modelled by name). -/
structure data_processor where
  read_handler : String
  write_handler : String
  error_handler : String
  running : Bool
deriving DecidableEq, Repr

/-- The global `worker_processor`, initialized with `.running = true`. -/
def worker_processor : data_processor :=
  { read_handler := "slimcache_process_read"
  , write_handler := "slimcache_process_write"
  , error_handler := "slimcache_process_error"
  , running := true }

/-- Name of the cancellation flag whose address is passed to `core_run`
and stored to by `_shutdown`. -/
def runningFlagName : String := "worker_processor.running"

/-- Outcomes of the fallible external calls made by main.c, fixed per run. -/
structure Env where
  atexitOk : Bool
  signalOk : Bool
  debugSetupOk : Bool
  daemonizeOpt : Bool
  pidFilename : Option String
  dlogIntvl : Nat
  klogIntvl : Nat
  dlogRegisterOk : Bool
  klogRegisterOk : Bool
  fopenOk : Bool
  loadDefaultOk : Bool
  loadFileOk : Bool
  sigtermDuringRun : Bool
deriving DecidableEq, Repr

/-- The library/pelikan modules set up by the block of unconditional
`*_setup` calls in `setup()` (lines 137-157), in source order. -/
def libModules : List Mod :=
  [Mod.buf, Mod.dbuf, Mod.event, Mod.sockio, Mod.tcp, Mod.timing_wheel,
   Mod.time, Mod.procinfo, Mod.request, Mod.response, Mod.parse, Mod.compose,
   Mod.klog, Mod.cuckoo, Mod.process, Mod.admin_process, Mod.core_admin,
   Mod.core_server, Mod.core_worker]

/-- All modules in the order `setup()` acquires them on a fully
successful run: `log_setup`, `debug_setup`, then the unconditional block. -/
def setupOrder : List Mod := Mod.log :: Mod.debug :: libModules

/-- The order `teardown()` releases modules, read off the body of
`teardown()` (lines 63-89). -/
def teardownOrder : List Mod :=
  [Mod.core_worker, Mod.core_server, Mod.core_admin, Mod.admin_process,
   Mod.process, Mod.cuckoo, Mod.klog, Mod.compose, Mod.parse, Mod.response,
   Mod.request, Mod.procinfo, Mod.time, Mod.timing_wheel, Mod.tcp, Mod.sockio,
   Mod.event, Mod.dbuf, Mod.buf, Mod.debug, Mod.log]

/-- Events emitted by one run of `teardown()`. -/
def teardownEvents : List Ev := teardownOrder.map Ev.modTeardown

/-- Semantics of exit(code): runs the atexit-registered `teardown` when registration
succeeded earlier, then terminates with `code`. -/
def doExit (registered : Bool) (code : Nat) : List Ev :=
  (if registered then teardownEvents else []) ++ [Ev.exited code]

/-- Events of the `fname != NULL` pid-file creation branch of `setup()`. -/
def pidfileCreateEvents (fname : Option String) : List Ev :=
  match fname with
  | some f => [Ev.createPidfile f]
  | none => []

/-- Events of the `fname != NULL` branch of the `error:` label of `setup()`. -/
def pidfileRemoveEvents (fname : Option String) : List Ev :=
  match fname with
  | some f => [Ev.removePidfile f]
  | none => []

/-- The `error:` label of `setup()`: conditional `remove_pidfile`, then
`exit(EX_CONFIG)` (teardown is registered by then). -/
def setupErrorExit (fname : Option String) : List Ev :=
  pidfileRemoveEvents fname ++ doExit true EX_CONFIG

/-- Events of `setup()` from the `log_setup` call through the block of
unconditional module setups (lines 119-157), on the path where
`debug_setup` succeeded: logging, debug, optional daemonize, optional
pid-file creation, then the unconditional module setups. -/
def setupPre (env : Env) : List Ev :=
  [Ev.modSetup Mod.log, Ev.modSetup Mod.debug]
  ++ (if env.daemonizeOpt then [Ev.daemonizeCall] else [])
  ++ pidfileCreateEvents env.pidFilename
  ++ libModules.map Ev.modSetup

/-- Embedding of `setup()`. Returns the events performed and `some code`
when it exited the process, `none` when it returned normally.
Mirrors lines 103-181 of main.c. -/
def setupFn (env : Env) : List Ev × Option Nat :=
  if env.atexitOk = false then
    (doExit false EX_OSERR, some EX_OSERR)
  else if env.signalOk = false then
    (doExit true EX_OSERR, some EX_OSERR)
  else if env.debugSetupOk = false then
    -- fname is still NULL when debug_setup fails, so no pid file is removed
    ([Ev.modSetup Mod.log] ++ setupErrorExit none, some EX_CONFIG)
  else if env.dlogRegisterOk = false then
    (setupPre env ++ setupErrorExit env.pidFilename, some EX_CONFIG)
  else if env.klogRegisterOk = false then
    (setupPre env ++ [Ev.adminRegister Tev.dlog env.dlogIntvl]
         ++ setupErrorExit env.pidFilename, some EX_CONFIG)
  else
    (setupPre env ++ [Ev.adminRegister Tev.dlog env.dlogIntvl,
             Ev.adminRegister Tev.klog env.klogIntvl], none)

/-- Embedding of the `_shutdown` signal handler (lines 91-101): release
store of false to the running flag, `core_destroy`, unregister both timed
events in loop order, then `exit(EX_OK)`. -/
def shutdownEvents : List Ev :=
  [Ev.atomicStore runningFlagName false true,
   Ev.coreDestroy,
   Ev.adminUnregister Tev.dlog,
   Ev.adminUnregister Tev.klog]
  ++ doExit true EX_OK

/-- Events after `setup()` returns: `option_print_all`, `core_run` on
`&worker_processor.running`, then either the SIGTERM handler fires or
`core_run` returns and `main` reaches `exit(EX_OK)`. -/
def runAndExit (env : Env) : List Ev :=
  [Ev.optionPrintAll, Ev.coreRunEv runningFlagName]
  ++ (if env.sigtermDuringRun then shutdownEvents else doExit true EX_OK)

/-- Embedding of `main` from the option-loading section on (lines 222-242);
`haveFile` records whether a config file was opened. -/
def afterArgs (env : Env) (haveFile : Bool) : List Ev :=
  if env.loadDefaultOk = false then
    [Ev.loadDefault, Ev.exited EX_CONFIG]
  else if haveFile && !env.loadFileOk then
    [Ev.loadDefault, Ev.loadFile, Ev.exited EX_DATAERR]
  else
    ([Ev.loadDefault] ++ (if haveFile then [Ev.loadFile] else []))
    ++ (match setupFn env with
        | (evs, some _) => evs
        | (evs, none) => evs ++ runAndExit env)

/-- The recognized option arguments of `main` (lines 199-214). -/
def flagArgs : List String :=
  ["-h", "--help", "-v", "--version", "-c", "--config", "-s", "--stats"]

/-- Embedding of `main` (lines 183-243). `args` is `argv[1:]`, so
`argc > 2` is `args.length > 1`. -/
def mainFn (env : Env) (args : List String) : List Ev :=
  if args.length > 1 then
    [Ev.showUsage, Ev.exited EX_USAGE]
  else
    match args with
    | [] => afterArgs env false
    | a :: _ =>
      if a = "-h" ∨ a = "--help" then [Ev.showUsage, Ev.exited EX_OK]
      else if a = "-v" ∨ a = "--version" then [Ev.showVersion, Ev.exited EX_OK]
      else if a = "-c" ∨ a = "--config" then [Ev.describeOptions, Ev.exited EX_OK]
      else if a = "-s" ∨ a = "--stats" then [Ev.describeMetrics, Ev.exited EX_OK]
      else if env.fopenOk = false then [Ev.exited EX_DATAERR]
      else afterArgs env true

/-- Exit code of a trace: the code of its final event when that is `exited`. -/
def finalExit (t : List Ev) : Option Nat :=
  match t.getLast? with
  | some (Ev.exited c) => some c
  | _ => none

/-- Events the pure-glue branches of `main` (usage/help/version/describe
branches and option loading) may contain. -/
def glueEv : Ev → Bool
| Ev.showUsage => true
| Ev.showVersion => true
| Ev.describeOptions => true
| Ev.describeMetrics => true
| Ev.loadDefault => true
| Ev.loadFile => true
| Ev.exited _ => true
| _ => false

/-- Recognizer for `core_admin_register` events. -/
def isAdminRegister : Ev → Bool
| Ev.adminRegister _ _ => true
| _ => false

/-- Classification of the fatal setup/startup failures, in the order the
program checks for them. -/
inductive FailClass
| usage
| dataerr
| config
| oserr
deriving DecidableEq, Repr

/-- Exit status associated with each failure class by main.c. -/
def classCode : FailClass → Nat
| FailClass.usage => EX_USAGE
| FailClass.dataerr => EX_DATAERR
| FailClass.config => EX_CONFIG
| FailClass.oserr => EX_OSERR

/-- First fatal failure, if any, hit after the argument branches:
load-default, load-file, and the `setup()` failures, in program order. -/
def configFailClass (env : Env) (haveFile : Bool) : Option FailClass :=
  if env.loadDefaultOk = false then some FailClass.config
  else if haveFile && !env.loadFileOk then some FailClass.dataerr
  else if env.atexitOk = false then some FailClass.oserr
  else if env.signalOk = false then some FailClass.oserr
  else if env.debugSetupOk = false then some FailClass.config
  else if env.dlogRegisterOk = false then some FailClass.config
  else if env.klogRegisterOk = false then some FailClass.config
  else none

/-- First fatal failure, if any, of a whole run of `main`. -/
def failClass (env : Env) (args : List String) : Option FailClass :=
  if args.length > 1 then some FailClass.usage
  else
    match args with
    | [] => configFailClass env false
    | a :: _ =>
      if a = "-h" ∨ a = "--help" then none
      else if a = "-v" ∨ a = "--version" then none
      else if a = "-c" ∨ a = "--config" then none
      else if a = "-s" ∨ a = "--stats" then none
      else if env.fopenOk = false then some FailClass.dataerr
      else configFailClass env true

/-- A fully successful environment (used as concrete witness input). -/
def envAllOk : Env :=
  { atexitOk := true, signalOk := true, debugSetupOk := true,
    daemonizeOpt := false, pidFilename := none, dlogIntvl := 3, klogIntvl := 5,
    dlogRegisterOk := true, klogRegisterOk := true, fopenOk := true,
    loadDefaultOk := true, loadFileOk := true, sigtermDuringRun := false }

/-- Environment where SIGTERM arrives while `core_run` is serving. -/
def envSigterm : Env := { envAllOk with sigtermDuringRun := true }

/-- Environment where the klog timed event fails to register after a pid
file was created. -/
def envKlogFail : Env :=
  { envAllOk with klogRegisterOk := false, pidFilename := some "slimcache.pid" }

/-- Environment where `debug_setup` fails. -/
def envDebugFail : Env := { envAllOk with debugSetupOk := false }

/-- Environment where `fopen` on the config path fails. -/
def envFopenFail : Env := { envAllOk with fopenOk := false }

namespace CuckooModel

/-- Modelled from the spec: the CuckooStore implementation is not among the
provided sources (only the entry point is), so the Item record follows §3 of
the spec: value bytes, flags, and an absolute expire time. -/
structure Item where
  value : List Nat
  flags : Nat
  expireAt : Nat
deriving DecidableEq, Repr

/-- Modelled from the spec: configured size maxima for keys and values
(§3: key and value lengths bounded by configured maxima). -/
structure Limits where
  maxKeyLen : Nat
  maxValLen : Nat
deriving DecidableEq, Repr

/-- Modelled from the spec: the authoritative key/value table, abstracted
to an association list (one live entry per key). -/
abbrev Store := List (String × Item)

/-- Modelled from the spec: size-limit check performed before any store
mutation (§3, §4.1). -/
def withinLimits (lim : Limits) (k : String) (v : List Nat) : Bool :=
  decide (k.length ≤ lim.maxKeyLen) && decide (v.length ≤ lim.maxValLen)

/-- Modelled from the spec: `get(key)` with lazy expiration — an entry past
its absolute expire time is never returned (§4.1, §4.2). -/
def get (now : Nat) (s : Store) (k : String) : Option Item :=
  match List.lookup k s with
  | some it => if now < it.expireAt then some it else none
  | none => none

/-- Remove any entry for key `k` from the table. -/
def removeKey (s : Store) (k : String) : Store :=
  List.filter (fun p => p.1 != k) s

/-- Modelled from the spec: `set(key, value, flags, ttl)` — size limits are
checked before touching the table (rejected inserts leave state unchanged);
a successful set stores the item with absolute expire time `now + ttl`,
replacing any previous entry for the key (§4.1). -/
def setOp (lim : Limits) (now : Nat) (s : Store) (k : String) (v : List Nat)
    (flags ttl : Nat) : Option Store :=
  if withinLimits lim k v then
    some ((k, Item.mk v flags (now + ttl)) :: removeKey s k)
  else
    none

/-- Modelled from the spec: `delete(key)` removes the key's entry (§4.1). -/
def deleteOp (s : Store) (k : String) : Store := removeKey s k

/-- Modelled from the spec: eviction (displacement or sweep) removes the
victim key's entry (§4.1, §4.2). -/
def evictOp (s : Store) (k : String) : Store := removeKey s k

/-- Operations that may intervene between a set and a later get. -/
inductive Op
| opSet (t : Nat) (k : String) (v : List Nat) (flags ttl : Nat)
| opDelete (t : Nat) (k : String)
| opEvict (t : Nat) (k : String)
deriving DecidableEq, Repr

/-- The key an operation touches. -/
def Op.key : Op → String
| Op.opSet _ k _ _ _ => k
| Op.opDelete _ k => k
| Op.opEvict _ k => k

/-- Apply one operation to the store (a rejected set leaves it unchanged). -/
def applyOp (lim : Limits) (s : Store) : Op → Store
| Op.opSet t k v f ttl => (setOp lim t s k v f ttl).getD s
| Op.opDelete _ k => deleteOp s k
| Op.opEvict _ k => evictOp s k

/-- Run a sequence of operations left to right. -/
def runOps (lim : Limits) (s : Store) (ops : List Op) : Store :=
  ops.foldl (applyOp lim) s

end CuckooModel

/-! Helper lemmas about the trace semantics. -/

theorem finalExit_append_doExit (xs : List Ev) (r : Bool) (c : Nat) :
    finalExit (xs ++ doExit r c) = some c := by
  simp [finalExit, doExit, ← List.append_assoc, List.getLast?_concat]

theorem mem_teardownEvents_of_mod (m : Mod) : Ev.modTeardown m ∈ teardownEvents := by
  refine List.mem_map.2 ⟨m, ?_, rfl⟩
  cases m <;> decide

theorem coreRun_not_mem_setupFn (env : Env) (f : String) :
    Ev.coreRunEv f ∉ (setupFn env).1 := by
  unfold setupFn
  cases hpf : env.pidFilename <;>
    split_ifs <;>
      simp [doExit, setupErrorExit, pidfileRemoveEvents, pidfileCreateEvents,
        teardownEvents, setupPre, libModules, teardownOrder, hpf]

theorem coreRun_mem_runAndExit (env : Env) (f : String)
    (h : Ev.coreRunEv f ∈ runAndExit env) : f = runningFlagName := by
  unfold runAndExit shutdownEvents at h
  split_ifs at h <;>
    simp [doExit, teardownEvents, teardownOrder] at h <;> exact h

theorem coreRun_mem_afterArgs (env : Env) (hf : Bool) (f : String)
    (h : Ev.coreRunEv f ∈ afterArgs env hf) : f = runningFlagName := by
  unfold afterArgs at h
  split at h
  · simp at h
  · split at h
    · simp at h
    · rcases hs : setupFn env with ⟨evs, oc⟩
      rw [hs] at h
      have hnot : Ev.coreRunEv f ∉ evs := by
        simpa [hs] using coreRun_not_mem_setupFn env f
      rcases oc with _ | c
      · simp only [List.mem_append, List.mem_singleton] at h
        rcases h with (h | h) | h | h
        · simp at h
        · rcases hf with _ | _ <;> simp at h
        · exact absurd h hnot
        · exact coreRun_mem_runAndExit env f h
      · simp only [List.mem_append, List.mem_singleton] at h
        rcases h with (h | h) | h
        · simp at h
        · rcases hf with _ | _ <;> simp at h
        · exact absurd h hnot

theorem coreRun_mem_mainFn (env : Env) (args : List String) (f : String)
    (h : Ev.coreRunEv f ∈ mainFn env args) : f = runningFlagName := by
  unfold mainFn at h
  split at h
  · simp at h
  · split at h
    · exact coreRun_mem_afterArgs env false f h
    · split_ifs at h <;> first
      | (simp at h)
      | (exact coreRun_mem_afterArgs env true f h)

theorem setupFn_shape (env : Env) :
    setupFn env = (doExit false EX_OSERR, some EX_OSERR)
  ∨ setupFn env = (doExit true EX_OSERR, some EX_OSERR)
  ∨ setupFn env = ([Ev.modSetup Mod.log] ++ setupErrorExit none, some EX_CONFIG)
  ∨ setupFn env = (setupPre env ++ setupErrorExit env.pidFilename, some EX_CONFIG)
  ∨ setupFn env = (setupPre env ++ [Ev.adminRegister Tev.dlog env.dlogIntvl]
      ++ setupErrorExit env.pidFilename, some EX_CONFIG)
  ∨ setupFn env = (setupPre env ++ [Ev.adminRegister Tev.dlog env.dlogIntvl,
      Ev.adminRegister Tev.klog env.klogIntvl], none) := by
  unfold setupFn
  split_ifs <;> tauto

theorem runAndExit_shape (env : Env) :
    runAndExit env = [Ev.optionPrintAll, Ev.coreRunEv runningFlagName] ++ shutdownEvents
  ∨ runAndExit env = [Ev.optionPrintAll, Ev.coreRunEv runningFlagName]
      ++ doExit true EX_OK := by
  unfold runAndExit
  split_ifs <;> tauto

theorem afterArgs_shape (env : Env) (hf : Bool) :
    afterArgs env hf = [Ev.loadDefault, Ev.exited EX_CONFIG]
  ∨ afterArgs env hf = [Ev.loadDefault, Ev.loadFile, Ev.exited EX_DATAERR]
  ∨ (∃ pre, (pre = [Ev.loadDefault] ∨ pre = [Ev.loadDefault, Ev.loadFile])
      ∧ ((∃ c, (setupFn env).2 = some c ∧ afterArgs env hf = pre ++ (setupFn env).1)
        ∨ ((setupFn env).2 = none
            ∧ afterArgs env hf = pre ++ ((setupFn env).1 ++ runAndExit env)))) := by
  by_cases h1 : env.loadDefaultOk = false
  · exact Or.inl (by simp [afterArgs, h1])
  · by_cases h2 : (hf && !env.loadFileOk) = true
    · exact Or.inr (Or.inl (by simp [afterArgs, h1, h2]))
    · refine Or.inr (Or.inr ⟨[Ev.loadDefault] ++ (if hf then [Ev.loadFile] else []),
        ?_, ?_⟩)
      · rcases hf with _ | _ <;> simp
      · rcases hs : setupFn env with ⟨evs, oc⟩
        rcases oc with _ | c
        · refine Or.inr ⟨by simp [hs], ?_⟩
          simp [afterArgs, h1, h2, hs]
        · refine Or.inl ⟨c, by simp [hs], ?_⟩
          simp [afterArgs, h1, h2, hs]

theorem mainFn_shape (env : Env) (args : List String) :
    mainFn env args = [Ev.showUsage, Ev.exited EX_USAGE]
  ∨ mainFn env args = [Ev.showUsage, Ev.exited EX_OK]
  ∨ mainFn env args = [Ev.showVersion, Ev.exited EX_OK]
  ∨ mainFn env args = [Ev.describeOptions, Ev.exited EX_OK]
  ∨ mainFn env args = [Ev.describeMetrics, Ev.exited EX_OK]
  ∨ mainFn env args = [Ev.exited EX_DATAERR]
  ∨ (∃ hf, mainFn env args = afterArgs env hf) := by
  unfold mainFn
  split
  · tauto
  · split
    · exact Or.inr (Or.inr (Or.inr (Or.inr (Or.inr (Or.inr ⟨false, rfl⟩)))))
    · split_ifs <;> tauto

theorem teardown_mem_doExit_true (m : Mod) (c : Nat) :
    Ev.modTeardown m ∈ doExit true c :=
  List.mem_append.2 (Or.inl (by simpa using mem_teardownEvents_of_mod m))

theorem teardown_mem_shutdownEvents (m : Mod) :
    Ev.modTeardown m ∈ shutdownEvents := by
  unfold shutdownEvents
  exact List.mem_append.2 (Or.inr (teardown_mem_doExit_true m EX_OK))

theorem teardown_mem_runAndExit (env : Env) (m : Mod) :
    Ev.modTeardown m ∈ runAndExit env := by
  rcases runAndExit_shape env with hs | hs <;> rw [hs]
  · exact List.mem_append.2 (Or.inr (teardown_mem_shutdownEvents m))
  · exact List.mem_append.2 (Or.inr (teardown_mem_doExit_true m EX_OK))

theorem teardown_mem_setupErrorExit (fname : Option String) (m : Mod) :
    Ev.modTeardown m ∈ setupErrorExit fname := by
  unfold setupErrorExit
  exact List.mem_append.2 (Or.inr (teardown_mem_doExit_true m EX_CONFIG))

theorem modSetup_not_mem_doExit (m : Mod) (r : Bool) (c : Nat) :
    Ev.modSetup m ∉ doExit r c := by
  rcases r with _ | _ <;> simp [doExit, teardownEvents, List.mem_map]

theorem exited_not_mem_teardownEvents (c : Nat) :
    Ev.exited c ∉ teardownEvents := by
  simp [teardownEvents, List.mem_map]

theorem exited_mem_doExit (r : Bool) (c c' : Nat)
    (h : Ev.exited c ∈ doExit r c') : c = c' := by
  unfold doExit at h
  rcases List.mem_append.1 h with h | h
  · rcases r with _ | _
    · simp at h
    · exact absurd (by simpa using h) (exited_not_mem_teardownEvents c)
  · simpa using h

theorem exited_not_mem_setupPre (env : Env) (c : Nat) :
    Ev.exited c ∉ setupPre env := by
  unfold setupPre
  cases hpf : env.pidFilename <;> cases hd : env.daemonizeOpt <;>
    simp [pidfileCreateEvents, libModules, hpf, hd]

theorem exited_mem_runAndExit (env : Env) (c : Nat)
    (h : Ev.exited c ∈ runAndExit env) : c = EX_OK := by
  rcases runAndExit_shape env with hs | hs <;> rw [hs] at h <;>
    rcases List.mem_append.1 h with h | h
  · simp at h
  · unfold shutdownEvents at h
    rcases List.mem_append.1 h with h | h
    · simp at h
    · exact exited_mem_doExit true c EX_OK h
  · simp at h
  · exact exited_mem_doExit true c EX_OK h

theorem setupFn_none_shape (env : Env) (h : (setupFn env).2 = none) :
    (setupFn env).1 = setupPre env
      ++ [Ev.adminRegister Tev.dlog env.dlogIntvl,
          Ev.adminRegister Tev.klog env.klogIntvl] := by
  rcases setupFn_shape env with hs | hs | hs | hs | hs | hs <;>
    rw [hs] at h ⊢ <;> simp_all

theorem nonGlue_trace_decomp (env : Env) (args : List String) (e : Ev)
    (he : glueEv e = false) (h : e ∈ mainFn env args) :
    ∃ pre, (pre = [Ev.loadDefault] ∨ pre = [Ev.loadDefault, Ev.loadFile])
      ∧ ((∃ c, (setupFn env).2 = some c
            ∧ mainFn env args = pre ++ (setupFn env).1
            ∧ e ∈ (setupFn env).1)
        ∨ ((setupFn env).2 = none
            ∧ mainFn env args = pre ++ ((setupFn env).1 ++ runAndExit env)
            ∧ (e ∈ (setupFn env).1 ∨ e ∈ runAndExit env))) := by
  rcases mainFn_shape env args with hs | hs | hs | hs | hs | hs | ⟨hf, hs⟩ <;>
    rw [hs] at h
  · simp at h
    rcases h with rfl | rfl <;> simp [glueEv] at he
  · simp at h
    rcases h with rfl | rfl <;> simp [glueEv] at he
  · simp at h
    rcases h with rfl | rfl <;> simp [glueEv] at he
  · simp at h
    rcases h with rfl | rfl <;> simp [glueEv] at he
  · simp at h
    rcases h with rfl | rfl <;> simp [glueEv] at he
  · simp at h
    subst h
    simp [glueEv] at he
  · rcases afterArgs_shape env hf with ha | ha | ⟨pre, hpre, hrest⟩
    · rw [ha] at h
      simp at h
      rcases h with rfl | rfl <;> simp [glueEv] at he
    · rw [ha] at h
      simp at h
      rcases h with rfl | rfl | rfl <;> simp [glueEv] at he
    · have hnp : e ∉ pre := by
        rcases hpre with rfl | rfl <;>
          · intro hm
            simp at hm
            rcases hm with rfl | rfl <;> simp [glueEv] at he
      rcases hrest with ⟨c, hsome, heq⟩ | ⟨hnone, heq⟩
      · rw [heq] at h
        rcases List.mem_append.1 h with h | h
        · exact absurd h hnp
        · exact ⟨pre, hpre, Or.inl ⟨c, hsome, by rw [hs, heq], h⟩⟩
      · rw [heq] at h
        rcases List.mem_append.1 h with h | h
        · exact absurd h hnp
        · exact ⟨pre, hpre, Or.inr ⟨hnone, by rw [hs, heq], List.mem_append.1 h⟩⟩


theorem finalExit_append_runAndExit (xs : List Ev) (env : Env) :
    finalExit (xs ++ runAndExit env) = some EX_OK := by
  rcases runAndExit_shape env with hs | hs <;> rw [hs]
  · unfold shutdownEvents
    have := finalExit_append_doExit
      ((xs ++ [Ev.optionPrintAll, Ev.coreRunEv runningFlagName])
        ++ [Ev.atomicStore runningFlagName false true, Ev.coreDestroy,
            Ev.adminUnregister Tev.dlog, Ev.adminUnregister Tev.klog])
      true EX_OK
    simpa [List.append_assoc] using this
  · have := finalExit_append_doExit
      (xs ++ [Ev.optionPrintAll, Ev.coreRunEv runningFlagName]) true EX_OK
    simpa [List.append_assoc] using this

theorem setupFn_finalExit (env : Env) (c : Nat)
    (hc : (setupFn env).2 = some c) (xs : List Ev) :
    finalExit (xs ++ (setupFn env).1) = some c := by
  rcases setupFn_shape env with hs | hs | hs | hs | hs | hs <;>
    rw [hs] at hc ⊢
  · simp only [Option.some.injEq] at hc
    subst hc
    exact finalExit_append_doExit xs false EX_OSERR
  · simp only [Option.some.injEq] at hc
    subst hc
    exact finalExit_append_doExit xs true EX_OSERR
  · simp only [Option.some.injEq] at hc
    subst hc
    have := finalExit_append_doExit
      ((xs ++ [Ev.modSetup Mod.log]) ++ pidfileRemoveEvents none) true EX_CONFIG
    simpa [setupErrorExit, List.append_assoc] using this
  · simp only [Option.some.injEq] at hc
    subst hc
    have := finalExit_append_doExit
      ((xs ++ setupPre env) ++ pidfileRemoveEvents env.pidFilename) true EX_CONFIG
    simpa [setupErrorExit, List.append_assoc] using this
  · simp only [Option.some.injEq] at hc
    subst hc
    have := finalExit_append_doExit
      (((xs ++ setupPre env) ++ [Ev.adminRegister Tev.dlog env.dlogIntvl])
        ++ pidfileRemoveEvents env.pidFilename) true EX_CONFIG
    simpa [setupErrorExit, List.append_assoc] using this
  · simp at hc

theorem afterArgs_eq_some (env : Env) (hf : Bool) (c : Nat)
    (h1 : ¬env.loadDefaultOk = false) (h2 : ¬(hf && !env.loadFileOk) = true)
    (hc : (setupFn env).2 = some c) :
    afterArgs env hf
      = ([Ev.loadDefault] ++ (if hf then [Ev.loadFile] else []))
        ++ (setupFn env).1 := by
  rcases hs : setupFn env with ⟨evs, oc⟩
  rw [hs] at hc
  simp only at hc
  subst hc
  unfold afterArgs
  simp [h1, h2, hs]

theorem afterArgs_fail_setup (env : Env) (hf : Bool) (c : Nat)
    (h1 : ¬env.loadDefaultOk = false) (h2 : ¬(hf && !env.loadFileOk) = true)
    (hc : (setupFn env).2 = some c) :
    (∀ f, Ev.coreRunEv f ∉ afterArgs env hf)
    ∧ finalExit (afterArgs env hf) = some c := by
  have he := afterArgs_eq_some env hf c h1 h2 hc
  constructor
  · intro f hm
    rw [he] at hm
    rcases List.mem_append.1 hm with hm | hm
    · rcases hf with _ | _ <;> simp at hm
    · exact coreRun_not_mem_setupFn env f hm
  · rw [he]
    exact setupFn_finalExit env c hc _

theorem afterArgs_fail (env : Env) (hf : Bool) (fc : FailClass)
    (h : configFailClass env hf = some fc) :
    (∀ f, Ev.coreRunEv f ∉ afterArgs env hf)
    ∧ finalExit (afterArgs env hf) = some (classCode fc) := by
  unfold configFailClass at h
  split_ifs at h with h1 h2 h3 h4 h5 h6 h7
  · injection h with h'
    subst h'
    have ha : afterArgs env hf = [Ev.loadDefault, Ev.exited EX_CONFIG] := by
      simp [afterArgs, h1]
    rw [ha]
    exact ⟨by simp, by decide⟩
  · injection h with h'
    subst h'
    have ha : afterArgs env hf
        = [Ev.loadDefault, Ev.loadFile, Ev.exited EX_DATAERR] := by
      simp [afterArgs, h1, h2]
    rw [ha]
    exact ⟨by simp, by decide⟩
  · injection h with h'
    subst h'
    exact afterArgs_fail_setup env hf _ h1 h2 (by simp [setupFn, h3, classCode])
  · injection h with h'
    subst h'
    exact afterArgs_fail_setup env hf _ h1 h2
      (by simp [setupFn, h3, h4, classCode])
  · injection h with h'
    subst h'
    exact afterArgs_fail_setup env hf _ h1 h2
      (by simp [setupFn, h3, h4, h5, classCode])
  · injection h with h'
    subst h'
    exact afterArgs_fail_setup env hf _ h1 h2
      (by simp [setupFn, h3, h4, h5, h6, classCode])
  · injection h with h'
    subst h'
    exact afterArgs_fail_setup env hf _ h1 h2
      (by simp [setupFn, h3, h4, h5, h6, h7, classCode])

theorem fatal_failure_classified (env : Env) (args : List String)
    (fc : FailClass) (h : failClass env args = some fc) :
    (∀ f, Ev.coreRunEv f ∉ mainFn env args)
    ∧ finalExit (mainFn env args) = some (classCode fc) := by
  unfold failClass at h
  split at h
  · rename_i hlen
    injection h with h'
    subst h'
    have hm : mainFn env args = [Ev.showUsage, Ev.exited EX_USAGE] := by
      unfold mainFn
      simp [hlen]
    rw [hm]
    exact ⟨by simp, by decide⟩
  · rename_i hlen
    split at h
    · have hm : mainFn env [] = afterArgs env false := by
        unfold mainFn
        simp
      rw [hm]
      exact afterArgs_fail env false fc h
    · rename_i a tail
      have ht : tail = [] := by
        cases tail with
        | nil => rfl
        | cons b bs => simp at hlen
      subst ht
      split_ifs at h with g1 g2 g3 g4 g5
      · injection h with h'
        subst h'
        have hm : mainFn env [a] = [Ev.exited EX_DATAERR] := by
          unfold mainFn
          simp [g1, g2, g3, g4, g5]
        rw [hm]
        exact ⟨by simp, by decide⟩
      · have hm : mainFn env [a] = afterArgs env true := by
          unfold mainFn
          simp [g1, g2, g3, g4, g5]
        rw [hm]
        exact afterArgs_fail env true fc h

/-! Claim theorems. -/

/-- C1: on SIGTERM, `_shutdown` performs a release-ordered atomic store of
`false` to `worker_processor.running` before `core_destroy`; this is the
same flag that is initialized to `true` and whose address `main` passes to
`core_run`, on every run that reaches `core_run`. -/
theorem shutdown_sets_cancellation_flag :
    worker_processor.running = true
    ∧ shutdownEvents.take 2
        = [Ev.atomicStore runningFlagName false true, Ev.coreDestroy]
    ∧ (∀ env args f, Ev.coreRunEv f ∈ mainFn env args → f = runningFlagName) :=
  ⟨rfl, rfl, fun env args f h => coreRun_mem_mainFn env args f h⟩

/-- Witness for C1 at a concrete successful run. -/
theorem shutdown_sets_cancellation_flag_witness :
    Ev.coreRunEv runningFlagName ∈ mainFn envSigterm []
    ∧ runningFlagName = runningFlagName := by
  constructor
  · decide
  · exact shutdown_sets_cancellation_flag.2.2 envSigterm [] runningFlagName (by decide)

/-- C8: with more than one command-line argument (`argc > 2`), the program
prints usage and exits with `EX_USAGE` having done nothing else: no
configuration load, no module setup, no `core_run`. -/
theorem extra_args_usage_exit (env : Env) (args : List String)
    (h : args.length > 1) :
    mainFn env args = [Ev.showUsage, Ev.exited EX_USAGE] := by
  unfold mainFn
  simp [h]

/-- Witness for C8 at a concrete two-argument invocation. -/
theorem extra_args_usage_exit_witness :
    ([ "a", "b" ] : List String).length > 1
    ∧ mainFn envAllOk ["a", "b"] = [Ev.showUsage, Ev.exited EX_USAGE] :=
  ⟨by decide, extra_args_usage_exit envAllOk ["a", "b"] (by decide)⟩


theorem coreDestroy_not_mem_setupFn (env : Env) :
    Ev.coreDestroy ∉ (setupFn env).1 := by
  unfold setupFn
  cases hpf : env.pidFilename <;>
    split_ifs <;>
      simp [doExit, setupErrorExit, pidfileRemoveEvents, pidfileCreateEvents,
        teardownEvents, setupPre, libModules, teardownOrder, hpf]

theorem coreDestroy_runAndExit_sigterm (env : Env)
    (h : Ev.coreDestroy ∈ runAndExit env) :
    runAndExit env
      = [Ev.optionPrintAll, Ev.coreRunEv runningFlagName] ++ shutdownEvents := by
  rcases runAndExit_shape env with hs | hs
  · exact hs
  · exfalso
    rw [hs] at h
    simp [doExit, teardownEvents, teardownOrder] at h

theorem modSetup_setupFn_cases (env : Env) (m m' : Mod)
    (h : Ev.modSetup m ∈ (setupFn env).1) :
    Ev.modTeardown m' ∈ (setupFn env).1 ∨ (setupFn env).2 = none := by
  rcases setupFn_shape env with hs | hs | hs | hs | hs | hs
  · rw [hs] at h
    exact absurd h (modSetup_not_mem_doExit m false EX_OSERR)
  · rw [hs] at h
    exact absurd h (modSetup_not_mem_doExit m true EX_OSERR)
  · rw [hs]
    exact Or.inl (by
      simp [setupErrorExit, doExit, mem_teardownEvents_of_mod m'])
  · rw [hs]
    exact Or.inl (by
      simp [setupErrorExit, doExit, mem_teardownEvents_of_mod m'])
  · rw [hs]
    exact Or.inl (by
      simp [setupErrorExit, doExit, mem_teardownEvents_of_mod m'])
  · rw [hs]
    exact Or.inr rfl

theorem modSetup_implies_teardown (env : Env) (args : List String) (m m' : Mod)
    (h : Ev.modSetup m ∈ mainFn env args) :
    Ev.modTeardown m' ∈ mainFn env args := by
  obtain ⟨pre, hpre, hcase⟩ := nonGlue_trace_decomp env args (Ev.modSetup m) rfl h
  rcases hcase with ⟨c, hsome, heq, hm⟩ | ⟨hnone, heq, hm⟩
  · rcases modSetup_setupFn_cases env m m' hm with ht | hn
    · rw [heq]
      exact List.mem_append.2 (Or.inr ht)
    · rw [hn] at hsome
      exact Option.noConfusion hsome
  · rw [heq]
    exact List.mem_append.2 (Or.inr
      (List.mem_append.2 (Or.inr (teardown_mem_runAndExit env m'))))

/-- C6: `teardown()` releases the modules in exactly the reverse of the
order `setup()` acquires them, and on every run in which any module was set
up, every module is torn down before the exit. -/
theorem teardown_reverse_of_acquisition :
    teardownOrder = setupOrder.reverse
    ∧ ∀ env args m m', Ev.modSetup m ∈ mainFn env args →
        Ev.modTeardown m' ∈ mainFn env args :=
  ⟨by decide, fun env args m m' h => modSetup_implies_teardown env args m m' h⟩

/-- Witness for C6 at a concrete successful run. -/
theorem teardown_reverse_of_acquisition_witness :
    Ev.modSetup Mod.cuckoo ∈ mainFn envAllOk []
    ∧ Ev.modTeardown Mod.cuckoo ∈ mainFn envAllOk [] := by
  constructor
  · decide
  · exact teardown_reverse_of_acquisition.2 envAllOk [] Mod.cuckoo Mod.cuckoo
      (by decide)

/-- C5: once `core_run` is reached, the run ends with exit status `EX_OK`,
and no exit event with any other status occurs in the run. -/
theorem after_serving_only_ok_exit (env : Env) (args : List String)
    (f : String) (h : Ev.coreRunEv f ∈ mainFn env args) :
    finalExit (mainFn env args) = some EX_OK
    ∧ ∀ c, Ev.exited c ∈ mainFn env args → c = EX_OK := by
  obtain ⟨pre, hpre, hcase⟩ := nonGlue_trace_decomp env args (Ev.coreRunEv f) rfl h
  rcases hcase with ⟨c, hsome, heq, hm⟩ | ⟨hnone, heq, hm⟩
  · exact absurd hm (coreRun_not_mem_setupFn env f)
  · constructor
    · rw [heq, ← List.append_assoc]
      exact finalExit_append_runAndExit _ env
    · intro c hc
      rw [heq] at hc
      rcases List.mem_append.1 hc with hc | hc
      · rcases hpre with rfl | rfl <;> simp at hc
      · rcases List.mem_append.1 hc with hc | hc
        · rw [setupFn_none_shape env hnone] at hc
          rcases List.mem_append.1 hc with hc | hc
          · exact absurd hc (exited_not_mem_setupPre env c)
          · simp at hc
        · exact exited_mem_runAndExit env c hc

/-- Witness for C5 at a concrete run reaching core_run. -/
theorem after_serving_only_ok_exit_witness :
    Ev.coreRunEv runningFlagName ∈ mainFn envAllOk []
    ∧ finalExit (mainFn envAllOk []) = some EX_OK := by
  constructor
  · decide
  · exact (after_serving_only_ok_exit envAllOk [] runningFlagName (by decide)).1


/-- C4: every fatal setup/startup failure (usage error, unreadable config,
option-load failure, atexit/signal registration failure, debug-log setup
failure, timed-event registration failure) exits before `core_run` with the
non-zero sysexits code of its failure class, and distinct classes map to
distinct codes. -/
theorem fatal_setup_failure_aborts (env : Env) (args : List String)
    (fc : FailClass) (h : failClass env args = some fc) :
    (∀ f, Ev.coreRunEv f ∉ mainFn env args)
    ∧ finalExit (mainFn env args) = some (classCode fc)
    ∧ classCode fc ≠ 0
    ∧ (classCode fc = EX_OSERR ∨ classCode fc = EX_CONFIG
        ∨ classCode fc = EX_DATAERR ∨ classCode fc = EX_USAGE)
    ∧ (∀ a b : FailClass, classCode a = classCode b → a = b) := by
  obtain ⟨h1, h2⟩ := fatal_failure_classified env args fc h
  refine ⟨h1, h2, ?_, ?_, ?_⟩
  · cases fc <;> decide
  · cases fc <;> decide
  · intro a b hab
    cases a <;> cases b <;> first | rfl | exact absurd hab (by decide)

/-- Witness for C4 at a concrete debug-setup failure. -/
theorem fatal_setup_failure_aborts_witness :
    failClass envDebugFail [] = some FailClass.config
    ∧ finalExit (mainFn envDebugFail []) = some (classCode FailClass.config) := by
  refine ⟨by decide, ?_⟩
  exact (fatal_setup_failure_aborts envDebugFail [] FailClass.config (by decide)).2.1

/-- C2 counterexample: a run that registers both periodic callbacks and
exits (normal return after core_run, status EX_OK) without any
`core_admin_unregister` call; likewise the setup-failure exit after the
first registration unregisters nothing. -/
theorem exit_without_unregister :
    (Ev.adminRegister Tev.dlog 3 ∈ mainFn envAllOk []
      ∧ Ev.adminRegister Tev.klog 5 ∈ mainFn envAllOk []
      ∧ Ev.exited EX_OK ∈ mainFn envAllOk []
      ∧ Ev.adminUnregister Tev.dlog ∉ mainFn envAllOk []
      ∧ Ev.adminUnregister Tev.klog ∉ mainFn envAllOk [])
    ∧ (Ev.adminRegister Tev.dlog 3 ∈ mainFn envKlogFail []
      ∧ Ev.exited EX_CONFIG ∈ mainFn envKlogFail []
      ∧ Ev.adminUnregister Tev.dlog ∉ mainFn envKlogFail []
      ∧ Ev.adminUnregister Tev.klog ∉ mainFn envKlogFail []) :=
  ⟨⟨by decide, by decide, by decide, by decide, by decide⟩,
   ⟨by decide, by decide, by decide, by decide⟩⟩

/-- C2 amended: when the process exits through the SIGTERM shutdown handler
(the only path containing `core_destroy`), both registered periodic
callbacks are unregistered via `core_admin_unregister` before the exit. -/
theorem sigterm_shutdown_unregisters (env : Env) (args : List String)
    (h : Ev.coreDestroy ∈ mainFn env args) :
    Ev.adminRegister Tev.dlog env.dlogIntvl ∈ mainFn env args
    ∧ Ev.adminRegister Tev.klog env.klogIntvl ∈ mainFn env args
    ∧ Ev.adminUnregister Tev.dlog ∈ mainFn env args
    ∧ Ev.adminUnregister Tev.klog ∈ mainFn env args
    ∧ shutdownEvents.indexOf (Ev.adminUnregister Tev.dlog)
        < shutdownEvents.indexOf (Ev.exited EX_OK)
    ∧ shutdownEvents.indexOf (Ev.adminUnregister Tev.klog)
        < shutdownEvents.indexOf (Ev.exited EX_OK) := by
  obtain ⟨pre, hpre, hcase⟩ := nonGlue_trace_decomp env args Ev.coreDestroy rfl h
  rcases hcase with ⟨c, hsome, heq, hm⟩ | ⟨hnone, heq, hm⟩
  · exact absurd hm (coreDestroy_not_mem_setupFn env)
  · rcases hm with hm | hm
    · exact absurd hm (coreDestroy_not_mem_setupFn env)
    · have hrs := coreDestroy_runAndExit_sigterm env hm
      have hreg := setupFn_none_shape env hnone
      have hmem1 : Ev.adminRegister Tev.dlog env.dlogIntvl ∈ (setupFn env).1 := by
        rw [hreg]
        simp
      have hmem2 : Ev.adminRegister Tev.klog env.klogIntvl ∈ (setupFn env).1 := by
        rw [hreg]
        simp
      have hu : ∀ t : Tev, Ev.adminUnregister t ∈ runAndExit env := by
        intro t
        rw [hrs]
        rcases t with _ | _ <;> simp [shutdownEvents, doExit]
      refine ⟨?_, ?_, ?_, ?_, by decide, by decide⟩
      · rw [heq]
        exact List.mem_append.2 (Or.inr (List.mem_append.2 (Or.inl hmem1)))
      · rw [heq]
        exact List.mem_append.2 (Or.inr (List.mem_append.2 (Or.inl hmem2)))
      · rw [heq]
        exact List.mem_append.2 (Or.inr (List.mem_append.2 (Or.inr (hu Tev.dlog))))
      · rw [heq]
        exact List.mem_append.2 (Or.inr (List.mem_append.2 (Or.inr (hu Tev.klog))))

/-- Witness for the amended C2 at a concrete SIGTERM run. -/
theorem sigterm_shutdown_unregisters_witness :
    Ev.coreDestroy ∈ mainFn envSigterm []
    ∧ Ev.adminUnregister Tev.dlog ∈ mainFn envSigterm [] := by
  refine ⟨by decide, ?_⟩
  exact (sigterm_shutdown_unregisters envSigterm [] (by decide)).2.2.1


theorem filter_adminRegister_setupPre (env : Env) :
    (setupPre env).filter isAdminRegister = [] := by
  unfold setupPre
  cases hpf : env.pidFilename <;> cases hd : env.daemonizeOpt <;>
    simp [pidfileCreateEvents, libModules, hpf, hd, isAdminRegister,
      List.filter_append]

/-- C3 counterexample: on a fully successful startup, setup registers
exactly two timed admin events — the debug-log flush and the command-log
flush — and no third (ExpirationWheel sweep) event. -/
theorem setup_registers_exactly_two :
    (mainFn envAllOk []).filter isAdminRegister
      = [Ev.adminRegister Tev.dlog 3, Ev.adminRegister Tev.klog 5]
    ∧ ((mainFn envAllOk []).filter isAdminRegister).length = 2 :=
  ⟨by decide, by decide⟩

/-- C3 amended: a setup that returns registers exactly two periodic
callbacks with the admin thread, the debug-log flush at `dlog_intvl` and
the command-log flush at `klog_intvl`, each interval read from its own
setting. -/
theorem setup_registers_dlog_klog (env : Env)
    (h : (setupFn env).2 = none) :
    ((setupFn env).1).filter isAdminRegister
      = [Ev.adminRegister Tev.dlog env.dlogIntvl,
         Ev.adminRegister Tev.klog env.klogIntvl] := by
  rw [setupFn_none_shape env h, List.filter_append, filter_adminRegister_setupPre]
  simp [isAdminRegister]

/-- Witness for the amended C3 at a concrete run with distinct intervals. -/
theorem setup_registers_dlog_klog_witness :
    (setupFn envAllOk).2 = none
    ∧ ((setupFn envAllOk).1).filter isAdminRegister
        = [Ev.adminRegister Tev.dlog 3, Ev.adminRegister Tev.klog 5] := by
  refine ⟨by decide, ?_⟩
  exact setup_registers_dlog_klog envAllOk (by decide)

/-- C9: a single command-line argument that is none of the recognized
options is treated as a config file path: an unopenable file exits
`EX_DATAERR` before any option load; otherwise defaults are loaded first
and the file applied on top; a file-load failure exits `EX_DATAERR`
before `setup` runs. -/
theorem config_file_arg_handling (env : Env) (a : String)
    (h : a ∉ flagArgs) :
    (env.fopenOk = false → mainFn env [a] = [Ev.exited EX_DATAERR])
    ∧ (env.fopenOk = true → env.loadDefaultOk = true → env.loadFileOk = false →
        mainFn env [a] = [Ev.loadDefault, Ev.loadFile, Ev.exited EX_DATAERR])
    ∧ (env.fopenOk = true → env.loadDefaultOk = true → env.loadFileOk = true →
        ∃ rest, mainFn env [a] = Ev.loadDefault :: Ev.loadFile :: rest) := by
  simp only [flagArgs, List.mem_cons, List.not_mem_nil, or_false, not_or] at h
  obtain ⟨h1, h2, h3, h4, h5, h6, h7, h8⟩ := h
  have g1 : ¬(a = "-h" ∨ a = "--help") := by tauto
  have g2 : ¬(a = "-v" ∨ a = "--version") := by tauto
  have g3 : ¬(a = "-c" ∨ a = "--config") := by tauto
  have g4 : ¬(a = "-s" ∨ a = "--stats") := by tauto
  refine ⟨?_, ?_, ?_⟩
  · intro hfo
    unfold mainFn
    simp [g1, g2, g3, g4, hfo]
  · intro hfo hld hlf
    unfold mainFn afterArgs
    simp [g1, g2, g3, g4, hfo, hld, hlf]
  · intro hfo hld hlf
    unfold mainFn afterArgs
    simp only [List.length_cons, List.length_nil]
    norm_num
    simp only [g1, g2, g3, g4, hfo, hld, hlf, if_false, ite_false, if_neg]
    exact ⟨_, rfl⟩

/-- Witness for C9 at a concrete unopenable config path. -/
theorem config_file_arg_handling_witness :
    ("slimcache.conf" ∉ flagArgs)
    ∧ mainFn envFopenFail ["slimcache.conf"] = [Ev.exited EX_DATAERR] := by
  refine ⟨by decide, ?_⟩
  exact (config_file_arg_handling envFopenFail "slimcache.conf" (by decide)).1 rfl


theorem removePidfile_not_mem_doExit (f : String) (r : Bool) (c : Nat) :
    Ev.removePidfile f ∉ doExit r c := by
  rcases r with _ | _ <;> simp [doExit, teardownEvents, List.mem_map]

theorem removePidfile_not_mem_setupPre (env : Env) (f : String) :
    Ev.removePidfile f ∉ setupPre env := by
  unfold setupPre
  cases hpf : env.pidFilename <;> cases hd : env.daemonizeOpt <;>
    simp [pidfileCreateEvents, libModules, hpf, hd]

theorem removePidfile_not_mem_runAndExit (env : Env) (f : String) :
    Ev.removePidfile f ∉ runAndExit env := by
  unfold runAndExit shutdownEvents
  split_ifs <;> simp [doExit, teardownEvents, teardownOrder]

theorem remove_mem_setupErrorExit (pf : Option String) (f : String)
    (h : Ev.removePidfile f ∈ setupErrorExit pf) : pf = some f := by
  unfold setupErrorExit at h
  rcases List.mem_append.1 h with h | h
  · cases pf <;> simp [pidfileRemoveEvents] at h
    simp [h]
  · exact absurd h (removePidfile_not_mem_doExit f true EX_CONFIG)

theorem create_mem_setupPre (env : Env) (f : String)
    (hpf : env.pidFilename = some f) :
    Ev.createPidfile f ∈ setupPre env := by
  unfold setupPre
  simp [pidfileCreateEvents, hpf]

theorem remove_to_create_setupFn (env : Env) (f : String)
    (h : Ev.removePidfile f ∈ (setupFn env).1) :
    Ev.createPidfile f ∈ (setupFn env).1 := by
  rcases setupFn_shape env with hs | hs | hs | hs | hs | hs <;> rw [hs] at h ⊢
  · exact absurd h (removePidfile_not_mem_doExit f false EX_OSERR)
  · exact absurd h (removePidfile_not_mem_doExit f true EX_OSERR)
  · exfalso
    rcases List.mem_append.1 h with h | h
    · simp at h
    · have := remove_mem_setupErrorExit none f h
      exact Option.noConfusion this
  · rcases List.mem_append.1 h with h | h
    · exact absurd h (removePidfile_not_mem_setupPre env f)
    · have hpf := remove_mem_setupErrorExit _ f h
      exact List.mem_append.2 (Or.inl (create_mem_setupPre env f hpf))
  · rcases List.mem_append.1 h with h | h
    · rcases List.mem_append.1 h with h | h
      · exact absurd h (removePidfile_not_mem_setupPre env f)
      · simp at h
    · have hpf := remove_mem_setupErrorExit _ f h
      exact List.mem_append.2 (Or.inl
        (List.mem_append.2 (Or.inl (create_mem_setupPre env f hpf))))
  · exfalso
    rcases List.mem_append.1 h with h | h
    · exact absurd h (removePidfile_not_mem_setupPre env f)
    · simp at h

/-- C10: when setup fails after the pid file was created (a timed-event
registration failure with a configured pid file), the pid file is removed
and the process exits `EX_CONFIG` with the exit event last; and on any run,
a pid-file removal only happens for a pid file that was created. -/
theorem pidfile_cleanup (env : Env) (args : List String) (f : String) :
    (env.pidFilename = some f → env.atexitOk = true → env.signalOk = true →
      env.debugSetupOk = true →
      (env.dlogRegisterOk = false ∨ env.klogRegisterOk = false) →
      ∃ pre, (setupFn env).1
          = pre ++ (Ev.removePidfile f :: (teardownEvents ++ [Ev.exited EX_CONFIG]))
        ∧ Ev.createPidfile f ∈ pre
        ∧ (setupFn env).2 = some EX_CONFIG)
    ∧ (Ev.removePidfile f ∈ mainFn env args →
        Ev.createPidfile f ∈ mainFn env args) := by
  constructor
  · intro hpf ha hsg hd hfail
    by_cases hdl : env.dlogRegisterOk = false
    · refine ⟨setupPre env, ?_, create_mem_setupPre env f hpf, ?_⟩
      · simp [setupFn, ha, hsg, hd, hdl, hpf, setupErrorExit,
          pidfileRemoveEvents, doExit]
      · simp [setupFn, ha, hsg, hd, hdl]
    · have hkl : env.klogRegisterOk = false := by tauto
      refine ⟨setupPre env ++ [Ev.adminRegister Tev.dlog env.dlogIntvl], ?_,
        List.mem_append.2 (Or.inl (create_mem_setupPre env f hpf)), ?_⟩
      · simp [setupFn, ha, hsg, hd, hdl, hkl, hpf, setupErrorExit,
          pidfileRemoveEvents, doExit]
      · simp [setupFn, ha, hsg, hd, hdl, hkl]
  · intro h
    obtain ⟨pre, hpre, hcase⟩ :=
      nonGlue_trace_decomp env args (Ev.removePidfile f) rfl h
    rcases hcase with ⟨c, hsome, heq, hm⟩ | ⟨hnone, heq, hm⟩
    · rw [heq]
      exact List.mem_append.2 (Or.inr (remove_to_create_setupFn env f hm))
    · rcases hm with hm | hm
      · rw [heq]
        exact List.mem_append.2 (Or.inr
          (List.mem_append.2 (Or.inl (remove_to_create_setupFn env f hm))))
      · exact absurd hm (removePidfile_not_mem_runAndExit env f)

/-- Witness for C10 at a concrete klog-registration failure with a pid
file. -/
theorem pidfile_cleanup_witness :
    envKlogFail.pidFilename = some "slimcache.pid"
    ∧ Ev.removePidfile "slimcache.pid" ∈ (setupFn envKlogFail).1
    ∧ (setupFn envKlogFail).2 = some EX_CONFIG := by
  have h := (pidfile_cleanup envKlogFail [] "slimcache.pid").1 rfl rfl rfl rfl
    (Or.inr rfl)
  obtain ⟨pre, heq, hc, hcode⟩ := h
  refine ⟨rfl, ?_, hcode⟩
  rw [heq]
  simp


namespace CuckooModel

theorem lookup_removeKey (s : Store) (k k' : String) (hne : k ≠ k') :
    List.lookup k (removeKey s k') = List.lookup k s := by
  induction s with
  | nil => rfl
  | cons p t ih =>
    rcases p with ⟨k0, it⟩
    by_cases h0 : k0 = k'
    · subst h0
      have hb : (k == k0) = false := by
        simp [hne]
      simp [removeKey, List.lookup, hb] at ih ⊢
      exact ih
    · by_cases hk : k = k0
      · subst hk
        simp [removeKey, List.lookup, h0]
      · have hb : (k == k0) = false := by simp [hk]
        simp [removeKey, List.lookup, h0, hb] at ih ⊢
        exact ih

theorem lookup_applyOp_ne (lim : Limits) (s : Store) (op : Op) (k : String)
    (h : Op.key op ≠ k) :
    List.lookup k (applyOp lim s op) = List.lookup k s := by
  cases op with
  | opSet t k' v fl ttl =>
    simp [Op.key] at h
    have hk : k ≠ k' := fun he => h he.symm
    have hb : (k == k') = false := by simp [hk]
    simp only [applyOp, setOp]
    split_ifs
    · simp [List.lookup, hb, lookup_removeKey s k k' hk]
    · simp
  | opDelete t k' =>
    simp [Op.key] at h
    simp only [applyOp, deleteOp]
    exact lookup_removeKey s k k' (fun he => h he.symm)
  | opEvict t k' =>
    simp [Op.key] at h
    simp only [applyOp, evictOp]
    exact lookup_removeKey s k k' (fun he => h he.symm)

theorem lookup_runOps (lim : Limits) (s : Store) (ops : List Op) (k : String)
    (hops : ∀ op ∈ ops, Op.key op ≠ k) :
    List.lookup k (runOps lim s ops) = List.lookup k s := by
  induction ops generalizing s with
  | nil => rfl
  | cons op t ih =>
    have h1 : runOps lim s (op :: t) = runOps lim (applyOp lim s op) t := rfl
    rw [h1, ih (applyOp lim s op) (fun o ho => hops o (List.mem_cons_of_mem _ ho)),
      lookup_applyOp_ne lim s op k (hops op (List.mem_cons_self op t))]

end CuckooModel

/-- C7: after a successful `set(k, v, flags, ttl)` at time `t0` on a store
within the configured size limits, `get(k)` at any time before expiry
returns `v` with its flags, as long as the intervening operations neither
overwrite, delete, nor evict `k` (CuckooStore modelled from the spec:
the store sources are not part of this repository snapshot). -/
theorem set_get_roundtrip (lim : CuckooModel.Limits) (s s' : CuckooModel.Store)
    (k : String) (v : List Nat) (flags ttl t0 now : Nat)
    (ops : List CuckooModel.Op)
    (hset : CuckooModel.setOp lim t0 s k v flags ttl = some s')
    (hops : ∀ op ∈ ops, CuckooModel.Op.key op ≠ k)
    (hnow : now < t0 + ttl) :
    (CuckooModel.get now (CuckooModel.runOps lim s' ops) k).map
        (fun it => (it.value, it.flags)) = some (v, flags) := by
  unfold CuckooModel.setOp at hset
  split_ifs at hset with hlim
  · injection hset with hset'
    subst hset'
    have hl : List.lookup k
        (CuckooModel.runOps lim
          ((k, CuckooModel.Item.mk v flags (t0 + ttl)) :: CuckooModel.removeKey s k)
          ops)
        = some (CuckooModel.Item.mk v flags (t0 + ttl)) := by
      rw [CuckooModel.lookup_runOps lim _ ops k hops]
      simp [List.lookup]
    simp [CuckooModel.get, hl, hnow]

/-- Witness for C7 at a concrete store run. -/
theorem set_get_roundtrip_witness :
    CuckooModel.setOp ⟨16, 16⟩ 0 [] "foo" [98, 97, 114] 0 5
      = some [("foo", CuckooModel.Item.mk [98, 97, 114] 0 5)]
    ∧ (CuckooModel.get 3
        (CuckooModel.runOps ⟨16, 16⟩ [("foo", CuckooModel.Item.mk [98, 97, 114] 0 5)]
          [CuckooModel.Op.opSet 1 "bar" [1] 0 9, CuckooModel.Op.opDelete 2 "bar"])
        "foo").map (fun it => (it.value, it.flags))
      = some ([98, 97, 114], 0) := by
  refine ⟨by decide, ?_⟩
  exact set_get_roundtrip ⟨16, 16⟩ [] [("foo", CuckooModel.Item.mk [98, 97, 114] 0 5)]
    "foo" [98, 97, 114] 0 5 0 3
    [CuckooModel.Op.opSet 1 "bar" [1] 0 9, CuckooModel.Op.opDelete 2 "bar"]
    (by decide) (by decide) (by decide)

end Slimcache
